import Mathlib

/-!
Verification of the UT161E multimeter driver
(`element_tester/system/drivers/meter_ut161_auto/`).

Shallow embedding conventions:
* byte strings are `List ℕ` (each entry one byte value);
* Python floats are modelled as exact rationals `ℚ` (every quantity the
  decoder produces is a small integer divided by a power of ten, and the
  claims compare those decimal values, not float bit patterns);
* `statistics.stdev` is modelled with `Real.sqrt` over the exact sample
  variance;
* Python dictionaries used as flag maps become association lists
  `List (String × FlagVal)`;
* fallible operations return `Except`;
* wall-clock-bounded loops (`read_once` retries, `wait_for_stable`) are
  modelled by a finite feed of the per-iteration inputs: exhausting the
  feed corresponds to the retry budget or the timeout expiring.
-/

namespace UT61EAuto

/-- A value stored in a `MeterReading.flags` entry (the Python code puts
booleans, ints, floats and strings into the same dict). -/
inductive FlagVal where
  | fb : Bool → FlagVal
  | fn : ℕ → FlagVal
  | fq : ℚ → FlagVal
  | fr : ℝ → FlagVal
  | fs : String → FlagVal

/-- `MeterReading` dataclass from `commands.py`. -/
structure MeterReading where
  value : Option ℚ
  unit : String
  mode : String
  is_overload : Bool := false
  is_negative : Bool := false
  flags : List (String × FlagVal) := []
  raw_packet : List ℕ := []

/-- Lower-case hex digit, as produced by Python's `bytes.hex()`. -/
def hexDigit (n : ℕ) : String :=
  if n < 10 then toString n
  else if n = 10 then "a"
  else if n = 11 then "b"
  else if n = 12 then "c"
  else if n = 13 then "d"
  else if n = 14 then "e"
  else "f"

/-- Two lower-case hex digits for one byte (`bytes.hex()` rendering). -/
def hexByte (b : ℕ) : String := hexDigit (b / 16 % 16) ++ hexDigit (b % 16)

/-- A row of the mode/range lookup table in `_parse_mode_and_range`.
The `scale` entry is present in every known-mode row of the source dict but
is never read by the decoder; the unknown-mode fallback dict has no
`scale`, hence the `Option`. -/
structure ModeInfo where
  unit : String
  mode : String
  scale : Option ℚ
  decimal_pos : ℕ

/-- `UT61EAutoCommands._parse_mode_and_range`: mode byte and range value
to measurement type, unit and decimal position.  Tables transcribed row by
row from `commands.py`. -/
def parse_mode_and_range (mode_byte range_value : ℕ) : ModeInfo :=
  let pick : List ModeInfo → ModeInfo := fun ranges =>
    -- "Get range info, default to first if out of bounds"
    if range_value < ranges.length then
      ranges.getD range_value ⟨"?", "?", none, 2⟩
    else
      ranges.getD 0 ⟨"?", "?", none, 2⟩
  if mode_byte = 0x0B then  -- Voltage
    pick [⟨"V", "DC Voltage", some 2.2, 3⟩,
          ⟨"V", "DC Voltage", some 22.0, 4⟩,
          ⟨"V", "DC Voltage", some 220.0, 2⟩,
          ⟨"V", "DC Voltage", some 1000.0, 1⟩,
          ⟨"mV", "DC Voltage", some 220.0, 2⟩]
  else if mode_byte = 0x03 then  -- Resistance
    pick [⟨"Ohm", "Resistance", some 220.0, 2⟩,
          ⟨"kOhm", "Resistance", some 2.2, 3⟩,
          ⟨"kOhm", "Resistance", some 22.0, 4⟩,
          ⟨"kOhm", "Resistance", some 220.0, 2⟩,
          ⟨"MOhm", "Resistance", some 2.2, 3⟩,
          ⟨"MOhm", "Resistance", some 22.0, 4⟩,
          ⟨"MOhm", "Resistance", some 220.0, 2⟩]
  else if mode_byte = 0x06 then  -- Capacitance
    pick [⟨"nF", "Capacitance", some 22.0, 4⟩,
          ⟨"nF", "Capacitance", some 220.0, 2⟩,
          ⟨"uF", "Capacitance", some 2.2, 3⟩,
          ⟨"uF", "Capacitance", some 22.0, 4⟩,
          ⟨"uF", "Capacitance", some 220.0, 2⟩,
          ⟨"mF", "Capacitance", some 2.2, 3⟩,
          ⟨"mF", "Capacitance", some 22.0, 4⟩,
          ⟨"mF", "Capacitance", some 220.0, 2⟩]
  else if mode_byte = 0x02 then  -- Frequency
    pick [⟨"Hz", "Frequency", some 220.0, 2⟩,
          ⟨"Hz", "Frequency", some 2200.0, 1⟩,
          ⟨"kHz", "Frequency", some 22.0, 4⟩,
          ⟨"kHz", "Frequency", some 220.0, 2⟩,
          ⟨"MHz", "Frequency", some 2.2, 3⟩,
          ⟨"MHz", "Frequency", some 22.0, 4⟩,
          ⟨"MHz", "Frequency", some 220.0, 2⟩]
  else if mode_byte = 0x0D then  -- Microamp
    pick [⟨"uA", "DC Current", some 220.0, 2⟩,
          ⟨"uA", "DC Current", some 2200.0, 1⟩]
  else if mode_byte = 0x0F then  -- Milliamp
    pick [⟨"mA", "DC Current", some 22.0, 4⟩,
          ⟨"mA", "DC Current", some 220.0, 2⟩]
  else if mode_byte = 0x00 then  -- Amp
    pick [⟨"A", "DC Current", some 10.0, 4⟩]
  else
    -- Unknown mode; `f"Unknown (0x{mode_byte:02X})"` rendered for the
    -- post-mask nibble (mode_byte < 16, so the 2-wide hex is "0" + digit).
    ⟨"?", "Unknown (0x0" ++ (hexDigit (mode_byte % 16)).toUpper ++ ")", none, 2⟩

/-- `UT61EAutoCommands._digits_to_value`: five digits to a decimal value.
`decimal_pos` is always ≤ 4 at the call sites, so the `Nat` subtraction in
the exponent agrees with Python's `10 ** (5 - decimal_pos)`. -/
def digits_to_value (digits : List ℕ) (decimal_pos : ℕ) : ℚ :=
  let value_int : ℕ := digits.foldl (fun a d => a * 10 + d) 0
  (value_int : ℚ) / ((10 : ℚ) ^ (5 - decimal_pos))

/-- Digit extraction loop of `cmd_parse_packet`: low nibble of bytes 1–5,
nibbles above 9 coerced to 0. -/
def packetDigits (packet : List ℕ) : List ℕ :=
  [1, 2, 3, 4, 5].map fun i =>
    let digit := (packet.getD i 0) &&& 0x0F
    if 9 < digit then 0 else digit

/-- The error reading built in the `except` clause of `cmd_parse_packet`. -/
def errorReading (msg : String) (packet : List ℕ) : MeterReading :=
  { value := none
    unit := "?"
    mode := "Parse Error: " ++ msg
    is_overload := true
    is_negative := false
    flags := [("error", FlagVal.fs msg)]
    raw_packet := packet }

/-- `UT61EAutoCommands.cmd_parse_packet`, non-simulate path.  The two
`ValueError`s raised by the validation code are caught by the function's
own `except` clause, which returns `errorReading`; the rest of the body
cannot raise. -/
def cmd_parse_packet_hw (packet : List ℕ) : MeterReading :=
  if packet.length ≠ 14 then
    errorReading ("Invalid packet length: " ++ toString packet.length) packet
  else if packet.drop 12 ≠ [0x0D, 0x0A] then
    errorReading ("Invalid terminator: " ++
      hexByte (packet.getD 12 0) ++ hexByte (packet.getD 13 0)) packet
  else
    let range_value := (packet.getD 0 0) &&& 0x07
    let digits := packetDigits packet
    let mode_byte := (packet.getD 6 0) &&& 0x0F
    let info_flags := (packet.getD 7 0) &&& 0x0F
    let rel_flags := (packet.getD 8 0) &&& 0x0F
    -- byte 9 (limit flags) is extracted by the source but never used
    let voltage_flags := (packet.getD 10 0) &&& 0x0F
    let hold_flags := (packet.getD 11 0) &&& 0x0F
    let is_percent := info_flags &&& 0x08 != 0
    let is_negative := info_flags &&& 0x04 != 0
    let is_low_battery := info_flags &&& 0x02 != 0
    let is_overload := info_flags &&& 0x01 != 0
    let is_dc := voltage_flags &&& 0x08 != 0
    let is_ac := voltage_flags &&& 0x04 != 0
    let is_auto := voltage_flags &&& 0x02 != 0
    let is_hz := voltage_flags &&& 0x01 != 0
    let is_hold := hold_flags &&& 0x02 != 0
    let is_rel := rel_flags &&& 0x02 != 0
    let mode_info := parse_mode_and_range mode_byte range_value
    let value : Option ℚ :=
      if is_overload then none
      else
        let v := digits_to_value digits mode_info.decimal_pos
        some (if is_negative then -v else v)
    { value := value
      unit := mode_info.unit
      mode := mode_info.mode
      is_overload := is_overload
      is_negative := is_negative
      flags := [("low_battery", FlagVal.fb is_low_battery),
                ("hold", FlagVal.fb is_hold),
                ("relative", FlagVal.fb is_rel),
                ("dc", FlagVal.fb is_dc),
                ("ac", FlagVal.fb is_ac),
                ("auto", FlagVal.fb is_auto),
                ("hz", FlagVal.fb is_hz),
                ("percent", FlagVal.fb is_percent)]
      raw_packet := packet }

/-- Simulate branch of `cmd_parse_packet`: bumps the internal `_sim_value`
by 0.5, wraps above 150 back to 100, and returns a fixed-shape reading
that never looks at the input packet (besides echoing it in
`raw_packet`).  Returns the reading and the new `_sim_value`. -/
def cmd_parse_packet_sim (sim_value : ℚ) (packet : List ℕ) :
    MeterReading × ℚ :=
  let v0 := sim_value + 1/2
  let v1 := if 150 < v0 then (100 : ℚ) else v0
  ({ value := some v1
     unit := "Ohm"
     mode := "Resistance"
     is_overload := false
     is_negative := false
     flags := [("simulate", FlagVal.fb true), ("auto", FlagVal.fb true)]
     raw_packet := packet }, v1)

/-- `UT61EAutoCommands.cmd_parse_packet` with the `simulate` dispatch and
the `_sim_value` state passed explicitly. -/
def cmd_parse_packet (simulate : Bool) (sim_value : ℚ) (packet : List ℕ) :
    MeterReading × ℚ :=
  if simulate then cmd_parse_packet_sim sim_value packet
  else (cmd_parse_packet_hw packet, sim_value)

/-! ## Transport layer (`transport.py`) -/

/-- `UT61EAutoTransport._extract_packet_from_report`, inner loop: scan the
candidate offsets in order and return the first 14-byte window whose bytes
all lie in the 7-bit range. -/
def extract_loop (report : List ℕ) : List ℕ → Option (List ℕ)
  | [] => none
  | o :: os =>
    if o + 14 ≤ report.length ∧
        ((report.drop o).take 14).all (fun b => b ≤ 0x7F) then
      some ((report.drop o).take 14)
    else
      extract_loop report os

/-- `UT61EAutoTransport._extract_packet_from_report`.  The `ValueError`
raised for short reports is modelled as `Except.error`. -/
def extract_packet_from_report (report : List ℕ) : Except String (List ℕ) :=
  match extract_loop report [0, 1, 2, 5] with
  | some packet => Except.ok packet
  | none =>
    if 14 ≤ report.length then Except.ok (report.take 14)
    else Except.error ("HID report too short: " ++ toString report.length ++ " bytes")

/-- `UT61EAutoTransport._generate_sim_packet` for the integral resistance
values the simulator produces (100.0–149.0): `f"{x:06.1f}"` renders
`n` as four zero-padded integer digits plus ".0", so the five encoded
digits are thousands, hundreds, tens, units, and a trailing 0. -/
def generate_sim_packet (n : ℕ) : List ℕ :=
  [0x61,
   0x30 ||| (n / 1000 % 10),
   0x30 ||| (n / 100 % 10),
   0x30 ||| (n / 10 % 10),
   0x30 ||| (n % 10),
   0x30 ||| 0,
   0x33,
   0x30, 0x30, 0x30, 0x3B, 0x30,
   0x0D, 0x0A]

/-- Simulate branch of `UT61EAutoTransport.read_packet`: bump the
`_sim_counter` and synthesize a packet for `100.0 + (counter % 50)` Ohms.
Returns the packet and the new counter. -/
def read_packet_sim (sim_counter : ℕ) : List ℕ × ℕ :=
  let c := sim_counter + 1
  (generate_sim_packet (100 + c % 50), c)

/-! ## Exception model (`errors.py` and Python built-ins)

Python class hierarchy relevant to the driver:
`UT61EAutoTimeoutError < UT61EAutoError < Exception`, while the built-in
`TimeoutError < OSError < Exception`.  In particular a
`UT61EAutoTimeoutError` is *not* an instance of the built-in
`TimeoutError`. -/

inductive PyExc where
  | builtinTimeout : String → PyExc  -- built-in `TimeoutError`
  | ut61eError : String → PyExc      -- `UT61EAutoError`
  | ut61eTimeout : String → PyExc    -- `UT61EAutoTimeoutError`

/-- `str(e)` for the exceptions we model. -/
def PyExc.message : PyExc → String
  | .builtinTimeout m => m
  | .ut61eError m => m
  | .ut61eTimeout m => m

/-- Python `isinstance(e, TimeoutError)` for the built-in class: true only
for the built-in timeout (the driver's own timeout class does not derive
from it). -/
def PyExc.isBuiltinTimeout : PyExc → Bool
  | .builtinTimeout _ => true
  | _ => false

/-- The concrete Python class of the exception, for readability of the
error-translation theorems. -/
def PyExc.className : PyExc → String
  | .builtinTimeout _ => "TimeoutError"
  | .ut61eError _ => "UT61EAutoError"
  | .ut61eTimeout _ => "UT61EAutoTimeoutError"

/-- Instance test against the two public error kinds: every
`UT61EAutoTimeoutError` is also a `UT61EAutoError`. -/
def PyExc.isUT61EAutoError : PyExc → Bool
  | .ut61eError _ => true
  | .ut61eTimeout _ => true
  | .builtinTimeout _ => false

/-! ## Procedures layer (`procedures.py`)

`read_once` consumes a feed of per-attempt transport results
(`none` = transport `TimeoutError`, `some packet` = a raw frame); the feed
length is the retry budget `max_retries`. -/

/-- One `read_once` attempt loop iteration; `last` is `str(last_error)`
(initially Python `None`, rendered `"None"` in the final message). -/
def read_once_go (max_retries : ℕ) :
    List (Option (List ℕ)) → Option String → Except PyExc MeterReading
  | [], last =>
    Except.error (PyExc.ut61eTimeout
      ("Failed to read after " ++ toString max_retries ++ " attempts: " ++
        last.getD "None"))
  | none :: rest, _ =>
    read_once_go max_retries rest (some "Timeout reading from UT161E HID device")
  | some packet :: rest, _ =>
    let reading := cmd_parse_packet_hw packet
    match reading.flags.lookup "error" with
    | some (FlagVal.fs e) =>
      read_once_go max_retries rest (some ("Parse error: " ++ e))
    | some _ =>
      read_once_go max_retries rest (some "Parse error: ")
    | none => Except.ok reading

/-- `UT61EAutoProcedures.read_once` over a feed of transport attempts. -/
def read_once (attempts : List (Option (List ℕ))) : Except PyExc MeterReading :=
  read_once_go attempts.length attempts none

/-! `read_averaged` and `wait_for_stable` each run one `read_once` per
loop iteration; their feeds below are the per-iteration `read_once`
results (`Except.error` = the attempt raised). -/

/-- The numeric samples `read_averaged` accumulates: readings that raised,
are overload, or have an absent value are skipped. -/
def collect_samples (feed : List (Except PyExc MeterReading)) : List ℚ :=
  feed.filterMap fun o =>
    match o with
    | .ok r => if r.is_overload then none else r.value
    | .error _ => none

/-- The `units` list accumulated alongside the samples. -/
def collect_units (feed : List (Except PyExc MeterReading)) : List String :=
  feed.filterMap fun o =>
    match o with
    | .ok r => if r.is_overload || r.value.isNone then none else some r.unit
    | .error _ => none

/-- The `modes` list accumulated alongside the samples. -/
def collect_modes (feed : List (Except PyExc MeterReading)) : List String :=
  feed.filterMap fun o =>
    match o with
    | .ok r => if r.is_overload || r.value.isNone then none else some r.mode
    | .error _ => none

/-- `statistics.mean` over exact rationals. -/
def listMean (l : List ℚ) : ℚ := l.sum / l.length

/-- The sample variance underlying `statistics.stdev`
(`Σ (x - mean)² / (n - 1)`); only used with `n ≥ 2`. -/
def sampleVariance (l : List ℚ) : ℚ :=
  (l.map (fun x => (x - listMean l) ^ 2)).sum / ((l.length : ℚ) - 1)

/-- `statistics.stdev`: square root of the sample variance. -/
noncomputable def sampleStdDev (l : List ℚ) : ℝ :=
  Real.sqrt ((sampleVariance l : ℚ) : ℝ)

/-- `max(set(l), key=l.count)`.  Python iterates the set in an unspecified
order; modelled here with first-occurrence order (`dedup`) and Python
`max`'s keep-first-maximum tie-breaking.  No claim in this development
depends on the tie order. -/
def most_common (l : List String) : String :=
  match l.dedup with
  | [] => ""
  | b :: rest => rest.foldl (fun best c => if l.count best < l.count c then c else best) b

/-- `UT61EAutoProcedures.read_averaged` over a feed of per-iteration
`read_once` results. -/
noncomputable def read_averaged (feed : List (Except PyExc MeterReading)) :
    Except PyExc MeterReading :=
  let samples := collect_samples feed
  if samples.isEmpty then
    Except.error (PyExc.ut61eError "No valid samples obtained for averaging")
  else
    let avg_value := listMean samples
    let std_dev : ℝ := if 1 < samples.length then sampleStdDev samples else 0
    Except.ok
      { value := some avg_value
        unit := most_common (collect_units feed)
        mode := most_common (collect_modes feed)
        is_overload := false
        is_negative := decide (avg_value < 0)
        flags := [("averaged", FlagVal.fb true),
                  ("sample_count", FlagVal.fn samples.length),
                  ("std_dev", FlagVal.fr std_dev)]
        raw_packet := [] }

/-- `recent_values.append(v)` followed by the `pop(0)` that keeps only the
last `window_size` values. -/
def push_window (window_size : ℕ) (win : List ℚ) (v : ℚ) : List ℚ :=
  let w := win ++ [v]
  if window_size < w.length then w.drop 1 else w

/-- The `max_variation` computed by `wait_for_stable` over a (nonempty)
window: maximum relative deviation from the window mean, or maximum
absolute value when the mean is exactly zero. -/
def max_variation (win : List ℚ) : ℚ :=
  let mean_val := listMean win
  if mean_val = 0 then (win.map (fun v => |v|)).foldl max 0
  else (win.map (fun v => |v - mean_val| / |mean_val|)).foldl max 0

/-- `UT61EAutoProcedures.wait_for_stable` loop body: a raised `read_once`
(`Except.error`) or an overload/absent reading clears the window;
otherwise the value is pushed and, once the window is full, stability is
checked; on success the *current* reading is returned.  Exhausting the
feed is the wall-clock timeout. -/
def wait_for_stable_go (stability_threshold : ℚ) (window_size : ℕ) :
    List (Except PyExc MeterReading) → List ℚ → Option MeterReading
  | [], _ => none
  | .error _ :: rest, _ => wait_for_stable_go stability_threshold window_size rest []
  | .ok r :: rest, win =>
    if r.is_overload || r.value.isNone then
      wait_for_stable_go stability_threshold window_size rest []
    else
      let win' := push_window window_size win (r.value.getD 0)
      if window_size ≤ win'.length ∧ max_variation win' ≤ stability_threshold then
        some r
      else
        wait_for_stable_go stability_threshold window_size rest win'

/-- `UT61EAutoProcedures.wait_for_stable` (window starts empty). -/
def wait_for_stable (stability_threshold : ℚ) (window_size : ℕ)
    (feed : List (Except PyExc MeterReading)) : Option MeterReading :=
  wait_for_stable_go stability_threshold window_size feed []

/-! ## Façade layer (`driver.py`)

Each façade reading operation wraps the underlying procedure call in
`try/except`: a first clause catches the *built-in* `TimeoutError` and
re-raises the timeout kind, a second clause catches everything else and
re-raises the general kind. -/

/-- `UT61EAutoDriver.read_value` exception translation. -/
def driver_read_value (proc_result : Except PyExc MeterReading) :
    Except PyExc MeterReading :=
  match proc_result with
  | .ok r => .ok r
  | .error e =>
    if e.isBuiltinTimeout then
      .error (PyExc.ut61eTimeout ("Timeout reading from UT61E Auto: " ++ e.message))
    else
      .error (PyExc.ut61eError ("Failed to read from UT61E Auto: " ++ e.message))

/-- `UT61EAutoDriver.wait_for_stable` exception translation. -/
def driver_wait_for_stable (proc_result : Except PyExc MeterReading) :
    Except PyExc MeterReading :=
  match proc_result with
  | .ok r => .ok r
  | .error e =>
    if e.isBuiltinTimeout then
      .error (PyExc.ut61eTimeout ("Reading did not stabilize: " ++ e.message))
    else
      .error (PyExc.ut61eError ("Failed waiting for stable reading: " ++ e.message))

/-- `UT61EAutoProcedures.wait_for_stable` as the façade sees it: a `none`
loop result is the `UT61EAutoTimeoutError` raised when the wall clock runs
out.  The interpolated timeout/threshold figures of the Python message are
elided; only the exception class matters to the claims. -/
def proc_wait_for_stable (stability_threshold : ℚ) (window_size : ℕ)
    (feed : List (Except PyExc MeterReading)) : Except PyExc MeterReading :=
  match wait_for_stable stability_threshold window_size feed with
  | some r => .ok r
  | none => .error (PyExc.ut61eTimeout "Reading did not stabilize within timeout")

/-- Façade `read_value` composed with the procedures layer. -/
def facade_read_value (attempts : List (Option (List ℕ))) :
    Except PyExc MeterReading :=
  driver_read_value (read_once attempts)

/-- Façade `wait_for_stable` composed with the procedures layer. -/
def facade_wait_for_stable (stability_threshold : ℚ) (window_size : ℕ)
    (feed : List (Except PyExc MeterReading)) : Except PyExc MeterReading :=
  driver_wait_for_stable (proc_wait_for_stable stability_threshold window_size feed)

/-! ## Concrete frames used by the theorems -/

/-- The frame of claim C1: range index 1, digit nibbles `[0,2,2,0,0]`,
mode nibble `0x03`, no info flags, canonical terminator. -/
def packetC1 : List ℕ :=
  [0x61, 0x30, 0x32, 0x32, 0x30, 0x30, 0x33,
   0x30, 0x30, 0x30, 0x30, 0x30, 0x0D, 0x0A]

/-- All-zero digits with the negative flag (byte 7, bit 2) set and the
overload flag clear. -/
def packetNegZero : List ℕ :=
  [0x61, 0x30, 0x30, 0x30, 0x30, 0x30, 0x33,
   0x34, 0x30, 0x30, 0x30, 0x30, 0x0D, 0x0A]

/-- Digits `[0,0,0,0,1]` with the negative flag set and overload clear. -/
def packetNegOne : List ℕ :=
  [0x61, 0x30, 0x30, 0x30, 0x30, 0x31, 0x33,
   0x34, 0x30, 0x30, 0x30, 0x30, 0x0D, 0x0A]

end UT61EAuto

namespace UT61EAuto

/-- C1 (counterexample): the frame with range index 1, mode nibble `0x03`
and digit nibbles `[0,2,2,0,0]` does *not* decode to value `2.200`: the
kOhm row at range index 1 carries decimal position 3, and the decoder
divides the 5-digit integer 02200 by `10^(5-3) = 100`, giving 22.0. -/
theorem c1_counterexample :
    (cmd_parse_packet_hw packetC1).value ≠ some (2.2 : ℚ) ∧
    (cmd_parse_packet_hw packetC1).value = some 22 := by
  have h : (cmd_parse_packet_hw packetC1).value = some ((2200 : ℚ) / 10 ^ 2) := rfl
  constructor
  · rw [h]; intro hc; rw [Option.some_inj] at hc; norm_num at hc
  · rw [h]; norm_num

/-- C1 (amended): decoding the 14-byte frame with terminator `0x0D 0x0A`,
range index 1, mode nibble `0x03`, digit nibbles `[0,2,2,0,0]`, negative
and overload flags clear yields value 22.0 (the 5-digit reading 02200
divided by `10^(5-3)`), unit `"kOhm"`, mode `"Resistance"`. -/
theorem c1_kohm_frame_decodes :
    (cmd_parse_packet_hw packetC1).value = some 22 ∧
    (cmd_parse_packet_hw packetC1).unit = "kOhm" ∧
    (cmd_parse_packet_hw packetC1).mode = "Resistance" ∧
    (cmd_parse_packet_hw packetC1).is_overload = false ∧
    (cmd_parse_packet_hw packetC1).is_negative = false := by
  refine ⟨?_, by decide, by decide, by decide, by decide⟩
  have h : (cmd_parse_packet_hw packetC1).value = some ((2200 : ℚ) / 10 ^ 2) := rfl
  rw [h]; norm_num

/-- C2: any input whose length is not 14, or of length 14 with a
non-canonical terminator, decodes (non-simulate path) to an error
reading: overload set, value absent, an `"error"` flag present; the
decoder is a total function, so it never raises. -/
theorem c2_malformed_input_error_reading (packet : List ℕ)
    (h : packet.length ≠ 14 ∨
      (packet.length = 14 ∧ packet.drop 12 ≠ [0x0D, 0x0A])) :
    (cmd_parse_packet_hw packet).is_overload = true ∧
    (cmd_parse_packet_hw packet).value = none ∧
    ((cmd_parse_packet_hw packet).flags.lookup "error").isSome = true := by
  rcases h with h | ⟨hlen, hterm⟩
  · rw [cmd_parse_packet_hw, if_pos h]
    exact ⟨rfl, rfl, rfl⟩
  · rw [cmd_parse_packet_hw, if_neg (by simp [hlen]), if_pos hterm]
    exact ⟨rfl, rfl, rfl⟩

/-- C2 witness: concrete malformed inputs (wrong length; right length but
wrong terminator). -/
theorem c2_malformed_input_error_reading_witness :
    (([1, 2, 3] : List ℕ).length ≠ 14 ∧
      (cmd_parse_packet_hw [1, 2, 3]).is_overload = true ∧
      (cmd_parse_packet_hw [1, 2, 3]).value = none ∧
      ((cmd_parse_packet_hw [1, 2, 3]).flags.lookup "error").isSome = true) ∧
    ((cmd_parse_packet_hw
        [0x61, 0x30, 0x30, 0x30, 0x30, 0x30, 0x33,
         0x30, 0x30, 0x30, 0x30, 0x30, 0x00, 0x00]).is_overload = true ∧
      (cmd_parse_packet_hw
        [0x61, 0x30, 0x30, 0x30, 0x30, 0x30, 0x33,
         0x30, 0x30, 0x30, 0x30, 0x30, 0x00, 0x00]).value = none ∧
      ((cmd_parse_packet_hw
        [0x61, 0x30, 0x30, 0x30, 0x30, 0x30, 0x33,
         0x30, 0x30, 0x30, 0x30, 0x30, 0x00, 0x00]).flags.lookup "error").isSome = true) :=
  ⟨⟨by decide, c2_malformed_input_error_reading [1, 2, 3] (Or.inl (by decide))⟩,
    c2_malformed_input_error_reading _ (Or.inr ⟨by decide, by decide⟩)⟩

/-- C8 (counterexample): with all digit nibbles zero, the negative flag
set and the overload flag clear, the decoded value is `-0.0 = 0`, which is
not strictly negative. -/
theorem c8_counterexample :
    (cmd_parse_packet_hw packetNegZero).is_negative = true ∧
    (packetNegZero.getD 7 0) &&& 0x0F &&& 0x04 ≠ 0 ∧
    (packetNegZero.getD 7 0) &&& 0x0F &&& 0x01 = 0 ∧
    (cmd_parse_packet_hw packetNegZero).value = some 0 ∧
    ¬ ∃ v : ℚ, (cmd_parse_packet_hw packetNegZero).value = some v ∧ v < 0 := by
  have h : (cmd_parse_packet_hw packetNegZero).value = some (-((0 : ℚ) / 10 ^ 2)) := rfl
  have h0 : (cmd_parse_packet_hw packetNegZero).value = some 0 := by rw [h]; norm_num
  refine ⟨by decide, by decide, by decide, h0, ?_⟩
  rintro ⟨v, hv, hlt⟩
  rw [h0, Option.some_inj] at hv
  rw [← hv] at hlt
  exact absurd hlt (lt_irrefl 0)

/-- Shape of the `value` field for a frame passing both validation
checks. -/
lemma cmd_parse_packet_hw_value_of_valid (packet : List ℕ)
    (hlen : packet.length = 14)
    (hterm : packet.drop 12 = [0x0D, 0x0A]) :
    (cmd_parse_packet_hw packet).value =
      (if ((packet.getD 7 0) &&& 0x0F &&& 0x01 != 0) then none
       else
         some (if ((packet.getD 7 0) &&& 0x0F &&& 0x04 != 0) then
            -(digits_to_value (packetDigits packet)
              (parse_mode_and_range ((packet.getD 6 0) &&& 0x0F)
                ((packet.getD 0 0) &&& 0x07)).decimal_pos)
          else
            digits_to_value (packetDigits packet)
              (parse_mode_and_range ((packet.getD 6 0) &&& 0x0F)
                ((packet.getD 0 0) &&& 0x07)).decimal_pos)) := by
  rw [cmd_parse_packet_hw, if_neg (by simp [hlen]), if_neg (by simp [hterm])]

/-- A frame passing both validation checks decodes with the overload bit
taken from byte 7, bit 0. -/
lemma cmd_parse_packet_hw_is_overload_of_valid (packet : List ℕ)
    (hlen : packet.length = 14)
    (hterm : packet.drop 12 = [0x0D, 0x0A]) :
    (cmd_parse_packet_hw packet).is_overload =
      ((packet.getD 7 0) &&& 0x0F &&& 0x01 != 0) := by
  rw [cmd_parse_packet_hw, if_neg (by simp [hlen]), if_neg (by simp [hterm])]

/-- A frame passing both validation checks decodes without an `"error"`
flag. -/
lemma cmd_parse_packet_hw_no_error_of_valid (packet : List ℕ)
    (hlen : packet.length = 14)
    (hterm : packet.drop 12 = [0x0D, 0x0A]) :
    ((cmd_parse_packet_hw packet).flags.lookup "error") = none := by
  rw [cmd_parse_packet_hw, if_neg (by simp [hlen]), if_neg (by simp [hterm])]
  rfl

/-- C8 (amended): for every valid 14-byte frame with the negative flag set
and the overload flag clear, the decoded value is present and
non-positive, and strictly negative exactly when the (masked) digit value
is nonzero; an all-zero digit display yields `-0.0 = 0`. -/
theorem c8_negative_flag_value_nonpositive (packet : List ℕ)
    (hlen : packet.length = 14)
    (hterm : packet.drop 12 = [0x0D, 0x0A])
    (hneg : (packet.getD 7 0) &&& 0x0F &&& 0x04 ≠ 0)
    (hov : (packet.getD 7 0) &&& 0x0F &&& 0x01 = 0) :
    ∃ v : ℚ, (cmd_parse_packet_hw packet).value = some v ∧ v ≤ 0 ∧
      (((packetDigits packet).foldl (fun a d => a * 10 + d) 0 ≠ 0) → v < 0) := by
  rw [cmd_parse_packet_hw_value_of_valid packet hlen hterm]
  have h1 : ((packet.getD 7 0) &&& 0x0F &&& 0x01 != 0) = false := by
    rw [hov]; rfl
  have h2 : ((packet.getD 7 0) &&& 0x0F &&& 0x04 != 0) = true :=
    bne_iff_ne.mpr hneg
  rw [h1, h2]
  rw [if_neg (by simp : ¬(false = true)), if_pos rfl]
  refine ⟨_, rfl, ?_, ?_⟩
  · have : 0 ≤ digits_to_value (packetDigits packet)
        (parse_mode_and_range ((packet.getD 6 0) &&& 0x0F)
          ((packet.getD 0 0) &&& 0x07)).decimal_pos := by
      rw [digits_to_value]
      exact div_nonneg (Nat.cast_nonneg _) (by positivity)
    linarith
  · intro hne
    rw [neg_lt_zero, digits_to_value]
    refine div_pos ?_ (by positivity)
    exact_mod_cast Nat.pos_of_ne_zero hne

/-- C8 (amended) witness: digits `[0,0,0,0,1]` with the negative flag set
decode to a strictly negative value. -/
theorem c8_negative_flag_value_nonpositive_witness :
    ∃ v : ℚ, (cmd_parse_packet_hw packetNegOne).value = some v ∧ v ≤ 0 ∧
      (((packetDigits packetNegOne).foldl (fun a d => a * 10 + d) 0 ≠ 0) → v < 0) :=
  c8_negative_flag_value_nonpositive packetNegOne
    (by decide) (by decide) (by decide) (by decide)

end UT61EAuto

namespace UT61EAuto

/-- C10: in simulate mode `cmd_parse_packet` never looks at the input
bytes: two decodes from the same `_sim_value` state agree on every field
except `raw_packet`, agree on the successor state, and are never overload
or error readings. -/
theorem c10_simulate_ignores_input (sim_value : ℚ) (p1 p2 : List ℕ) :
    (cmd_parse_packet true sim_value p1).1.value =
      (cmd_parse_packet true sim_value p2).1.value ∧
    (cmd_parse_packet true sim_value p1).1.unit =
      (cmd_parse_packet true sim_value p2).1.unit ∧
    (cmd_parse_packet true sim_value p1).1.mode =
      (cmd_parse_packet true sim_value p2).1.mode ∧
    (cmd_parse_packet true sim_value p1).1.is_overload =
      (cmd_parse_packet true sim_value p2).1.is_overload ∧
    (cmd_parse_packet true sim_value p1).1.is_negative =
      (cmd_parse_packet true sim_value p2).1.is_negative ∧
    (cmd_parse_packet true sim_value p1).1.flags =
      (cmd_parse_packet true sim_value p2).1.flags ∧
    (cmd_parse_packet true sim_value p1).2 =
      (cmd_parse_packet true sim_value p2).2 ∧
    (cmd_parse_packet true sim_value p1).1.is_overload = false ∧
    ((cmd_parse_packet true sim_value p1).1.flags.lookup "error") = none ∧
    (cmd_parse_packet true sim_value p1).1.value.isSome = true :=
  ⟨rfl, rfl, rfl, rfl, rfl, rfl, rfl, rfl, rfl, rfl⟩

/-- The Boolean offset test of `_extract_packet_from_report`: the window
at offset `o` fits in the report and all its bytes are 7-bit. -/
def good_window (report : List ℕ) (o : ℕ) : Bool :=
  decide (o + 14 ≤ report.length) &&
    ((report.drop o).take 14).all (fun b => b ≤ 0x7F)

/-- The offset scan returns exactly the window of the first good offset. -/
lemma extract_loop_eq_find (report : List ℕ) (os : List ℕ) :
    extract_loop report os =
      (os.find? (good_window report)).map (fun o => (report.drop o).take 14) := by
  induction os with
  | nil => rfl
  | cons o os ih =>
    by_cases h : good_window report o = true
    · have hp : o + 14 ≤ report.length ∧
          ((report.drop o).take 14).all (fun b => b ≤ 0x7F) = true := by
        have := h
        simp only [good_window, Bool.and_eq_true, decide_eq_true_eq] at this
        exact this
      rw [extract_loop, if_pos ⟨hp.1, hp.2⟩, List.find?_cons_of_pos _ h]
      rfl
    · have hp : ¬(o + 14 ≤ report.length ∧
          ((report.drop o).take 14).all (fun b => b ≤ 0x7F) = true) := by
        intro hc
        apply h
        simp only [good_window, Bool.and_eq_true, decide_eq_true_eq]
        exact hc
      rw [extract_loop, if_neg hp, List.find?_cons_of_neg _ h, ih]

/-- C6: payload extraction tries offsets 0, 1, 2, 5 in order and returns
the first 14-byte window whose bytes are all ≤ 0x7F; with no qualifying
offset it returns the first 14 bytes when at least 14 exist, and fails
with the format error otherwise. -/
theorem c6_extract_packet_spec (report : List ℕ) :
    (∀ o, [0, 1, 2, 5].find? (good_window report) = some o →
        extract_packet_from_report report = Except.ok ((report.drop o).take 14)) ∧
    ([0, 1, 2, 5].find? (good_window report) = none → 14 ≤ report.length →
        extract_packet_from_report report = Except.ok (report.take 14)) ∧
    (report.length < 14 →
        extract_packet_from_report report =
          Except.error ("HID report too short: " ++ toString report.length ++ " bytes")) := by
  refine ⟨?_, ?_, ?_⟩
  · intro o ho
    rw [extract_packet_from_report, extract_loop_eq_find, ho]
    rfl
  · intro hnone hlen
    rw [extract_packet_from_report, extract_loop_eq_find, hnone]
    show (if 14 ≤ report.length then Except.ok (report.take 14)
      else Except.error ("HID report too short: " ++ toString report.length ++ " bytes")) = _
    rw [if_pos hlen]
  · intro hshort
    have hnone : [0, 1, 2, 5].find? (good_window report) = none := by
      apply List.find?_eq_none.mpr
      intro o ho
      simp only [good_window, Bool.and_eq_true, decide_eq_true_eq, not_and]
      intro hc
      exfalso
      omega
    rw [extract_packet_from_report, extract_loop_eq_find, hnone]
    show (if 14 ≤ report.length then Except.ok (report.take 14)
      else Except.error ("HID report too short: " ++ toString report.length ++ " bytes")) = _
    rw [if_neg (by omega)]

/-- C6 witness: a 15-byte report whose byte 0 is out of 7-bit range is
extracted at offset 1; a 2-byte report fails with the format error. -/
theorem c6_extract_packet_spec_witness :
    extract_packet_from_report
        (0xFF :: [1, 2, 3, 4, 5, 6, 7, 8, 9, 10, 11, 12, 13, 14]) =
      Except.ok [1, 2, 3, 4, 5, 6, 7, 8, 9, 10, 11, 12, 13, 14] ∧
    extract_packet_from_report [1, 2] =
      Except.error ("HID report too short: " ++ toString ([1, 2] : List ℕ).length ++ " bytes") :=
  ⟨(c6_extract_packet_spec _).1 1 (by decide),
    (c6_extract_packet_spec [1, 2]).2.2 (by decide)⟩

end UT61EAuto

namespace UT61EAuto

/-- The Python class of the exception carried by an `Except.error`
result. -/
def result_class : Except PyExc MeterReading → Option String
  | .error e => some e.className
  | .ok _ => none

/-- C7 (code bug): when the procedures layer fails with its timeout kind
(`UT61EAutoTimeoutError` — read retries exhausted, or stability not
reached), the façade's `except TimeoutError` clause does not match it
(the driver's class derives from `UT61EAutoError`, not from the built-in
`TimeoutError`), so the generic clause re-wraps it as the *general* kind
`UT61EAutoError`, contrary to the spec and to
`UT61EAutoDriver.wait_for_stable`'s own docstring. -/
theorem c7_facade_swallows_timeout_kind :
    result_class (read_once [some []]) = some "UT61EAutoTimeoutError" ∧
    result_class (facade_read_value [some []]) = some "UT61EAutoError" ∧
    result_class (proc_wait_for_stable 1 3 []) = some "UT61EAutoTimeoutError" ∧
    result_class (facade_wait_for_stable 1 3 []) = some "UT61EAutoError" ∧
    (PyExc.ut61eTimeout "x").isBuiltinTimeout = false ∧
    (PyExc.ut61eTimeout "x").isUT61EAutoError = true ∧
    (PyExc.ut61eError "x").isUT61EAutoError = true :=
  ⟨rfl, rfl, rfl, rfl, rfl, rfl, rfl⟩

/-- Both façade operations only ever surface the two public error kinds
(`UT61EAutoError` or its subclass `UT61EAutoTimeoutError`) — the part of
C7 that does hold. -/
lemma facade_error_kinds (attempts : List (Option (List ℕ)))
    (t : ℚ) (w : ℕ) (feed : List (Except PyExc MeterReading)) :
    (∀ e, facade_read_value attempts = .error e → e.isUT61EAutoError = true) ∧
    (∀ e, facade_wait_for_stable t w feed = .error e → e.isUT61EAutoError = true) := by
  constructor
  · intro e he
    rw [facade_read_value] at he
    cases hr : read_once attempts with
    | ok r =>
      rw [hr] at he
      cases he
    | error e0 =>
      rw [hr] at he
      by_cases hb : e0.isBuiltinTimeout = true
      · rw [show driver_read_value (Except.error e0) =
            (if e0.isBuiltinTimeout then
              Except.error (PyExc.ut61eTimeout ("Timeout reading from UT61E Auto: " ++ e0.message))
            else
              Except.error (PyExc.ut61eError ("Failed to read from UT61E Auto: " ++ e0.message))) from rfl,
          if_pos hb] at he
        cases he
        rfl
      · rw [show driver_read_value (Except.error e0) =
            (if e0.isBuiltinTimeout then
              Except.error (PyExc.ut61eTimeout ("Timeout reading from UT61E Auto: " ++ e0.message))
            else
              Except.error (PyExc.ut61eError ("Failed to read from UT61E Auto: " ++ e0.message))) from rfl,
          if_neg hb] at he
        cases he
        rfl
  · intro e he
    rw [facade_wait_for_stable] at he
    cases hr : proc_wait_for_stable t w feed with
    | ok r =>
      rw [hr] at he
      cases he
    | error e0 =>
      rw [hr] at he
      by_cases hb : e0.isBuiltinTimeout = true
      · rw [show driver_wait_for_stable (Except.error e0) =
            (if e0.isBuiltinTimeout then
              Except.error (PyExc.ut61eTimeout ("Reading did not stabilize: " ++ e0.message))
            else
              Except.error (PyExc.ut61eError ("Failed waiting for stable reading: " ++ e0.message))) from rfl,
          if_pos hb] at he
        cases he
        rfl
      · rw [show driver_wait_for_stable (Except.error e0) =
            (if e0.isBuiltinTimeout then
              Except.error (PyExc.ut61eTimeout ("Reading did not stabilize: " ++ e0.message))
            else
              Except.error (PyExc.ut61eError ("Failed waiting for stable reading: " ++ e0.message))) from rfl,
          if_neg hb] at he
        cases he
        rfl

end UT61EAuto

namespace UT61EAuto

/-- Decoder invariant: an overload reading never carries a value. -/
lemma cmd_parse_packet_hw_overload_invariant (packet : List ℕ) :
    (cmd_parse_packet_hw packet).is_overload = true →
    (cmd_parse_packet_hw packet).value = none := by
  intro h
  by_cases h1 : packet.length = 14
  · by_cases h2 : packet.drop 12 = [0x0D, 0x0A]
    · rw [cmd_parse_packet_hw_value_of_valid packet h1 h2]
      rw [cmd_parse_packet_hw_is_overload_of_valid packet h1 h2] at h
      rw [h, if_pos rfl]
    · rw [cmd_parse_packet_hw, if_neg (by simp [h1]), if_pos h2]
      rfl
  · rw [cmd_parse_packet_hw, if_pos h1]
    rfl

/-- Every successful `read_once` result is a `cmd_parse_packet_hw`
output. -/
lemma read_once_go_ok_is_parse (n : ℕ) (attempts : List (Option (List ℕ)))
    (last : Option String) (r : MeterReading) :
    read_once_go n attempts last = Except.ok r →
    ∃ packet, r = cmd_parse_packet_hw packet := by
  induction attempts generalizing last with
  | nil => intro h; cases h
  | cons a rest ih =>
    cases a with
    | none =>
      intro h
      exact ih _ h
    | some packet =>
      rw [read_once_go]
      cases hf : (cmd_parse_packet_hw packet).flags.lookup "error" with
      | none =>
        intro h
        cases h
        exact ⟨packet, rfl⟩
      | some v =>
        cases v with
        | fs e => intro h; exact ih _ h
        | fb b => intro h; exact ih _ h
        | fn n' => intro h; exact ih _ h
        | fq q => intro h; exact ih _ h
        | fr x => intro h; exact ih _ h

/-- A reading returned by the `wait_for_stable` loop passed the
overload/absent-value check. -/
lemma wait_for_stable_go_some_valid (t : ℚ) (w : ℕ)
    (feed : List (Except PyExc MeterReading)) (win : List ℚ) (r : MeterReading) :
    wait_for_stable_go t w feed win = some r →
    r.is_overload = false ∧ r.value.isSome = true := by
  induction feed generalizing win with
  | nil => intro h; cases h
  | cons e rest ih =>
    cases e with
    | error e0 =>
      intro h
      exact ih _ h
    | ok r0 =>
      rw [wait_for_stable_go]
      by_cases hv : (r0.is_overload || r0.value.isNone) = true
      · rw [if_pos hv]
        intro h
        exact ih _ h
      · rw [if_neg hv]
        by_cases ht : w ≤ (push_window w win (r0.value.getD 0)).length ∧
            max_variation (push_window w win (r0.value.getD 0)) ≤ t
        · rw [if_pos ht]
          intro h
          cases h
          simp only [Bool.or_eq_true, not_or, Bool.not_eq_true] at hv
          refine ⟨hv.1, ?_⟩
          cases hval : r.value with
          | none => rw [hval] at hv; cases hv.2.symm.trans (rfl : (none : Option ℚ).isNone = true)
          | some v => rfl
        · rw [if_neg ht]
          intro h
          exact ih _ h

/-- C3: the data-model invariant "overload readings carry no value" holds
for every decoder output; valid frames with the overload bit (byte 7,
bit 0) set decode to an overloaded, value-free reading whatever the
digits; and the public operations preserve the invariant: `read_once`
outputs are decoder outputs, `read_averaged` successes are never
overload, and `wait_for_stable` only returns non-overload readings with a
present value. -/
theorem c3_overload_value_invariant :
    (∀ packet, (cmd_parse_packet_hw packet).is_overload = true →
        (cmd_parse_packet_hw packet).value = none) ∧
    (∀ packet, packet.length = 14 → packet.drop 12 = [0x0D, 0x0A] →
        (packet.getD 7 0) &&& 0x0F &&& 0x01 ≠ 0 →
        (cmd_parse_packet_hw packet).is_overload = true ∧
        (cmd_parse_packet_hw packet).value = none) ∧
    (∀ attempts r, read_once attempts = Except.ok r →
        r.is_overload = true → r.value = none) ∧
    (∀ feed r, read_averaged feed = Except.ok r → r.is_overload = false) ∧
    (∀ t w feed r, wait_for_stable t w feed = some r →
        r.is_overload = false ∧ r.value.isSome = true) := by
  refine ⟨cmd_parse_packet_hw_overload_invariant, ?_, ?_, ?_, ?_⟩
  · intro packet h1 h2 hbit
    have hov : (cmd_parse_packet_hw packet).is_overload = true := by
      rw [cmd_parse_packet_hw_is_overload_of_valid packet h1 h2]
      exact bne_iff_ne.mpr hbit
    exact ⟨hov, cmd_parse_packet_hw_overload_invariant packet hov⟩
  · intro attempts r hr
    obtain ⟨packet, rfl⟩ := read_once_go_ok_is_parse _ _ _ _ hr
    exact cmd_parse_packet_hw_overload_invariant packet
  · intro feed r h
    rw [read_averaged] at h
    by_cases hs : (collect_samples feed).isEmpty = true
    · rw [if_pos hs] at h
      cases h
    · rw [if_neg hs] at h
      cases h
      rfl
  · exact fun t w feed r h => wait_for_stable_go_some_valid t w feed [] r h

end UT61EAuto

namespace UT61EAuto

/-- A valid frame with the overload flag (byte 7, bit 0) set and nonzero
digit nibbles. -/
def packetOverload : List ℕ :=
  [0x61, 0x31, 0x32, 0x33, 0x34, 0x35, 0x33,
   0x31, 0x30, 0x30, 0x30, 0x30, 0x0D, 0x0A]

/-- A plain valid reading used to exercise the loop procedures. -/
def plainReading : MeterReading :=
  { value := some 5, unit := "Ohm", mode := "Resistance" }

/-- C3 witness: the invariant applied to a malformed frame, to a concrete
overload frame (with nonzero digits), and to concrete feeds for
`read_once`, `read_averaged` and `wait_for_stable`. -/
theorem c3_overload_value_invariant_witness :
    (cmd_parse_packet_hw []).value = none ∧
    ((cmd_parse_packet_hw packetOverload).is_overload = true ∧
      (cmd_parse_packet_hw packetOverload).value = none) ∧
    (read_once [some packetOverload] = Except.ok (cmd_parse_packet_hw packetOverload) ∧
      (cmd_parse_packet_hw packetOverload).value = none) ∧
    (∃ r, read_averaged [Except.ok plainReading] = Except.ok r ∧
      r.is_overload = false) ∧
    (wait_for_stable 1 1 [Except.ok plainReading] = some plainReading ∧
      plainReading.is_overload = false ∧ plainReading.value.isSome = true) := by
  have hmain := c3_overload_value_invariant
  have hwait : wait_for_stable 1 1 [Except.ok plainReading] = some plainReading := by
    rw [wait_for_stable, wait_for_stable_go,
      if_neg (by decide :
        ¬(plainReading.is_overload || plainReading.value.isNone) = true)]
    rw [if_pos ?hc]
    case hc =>
      constructor
      · decide
      · have hpw : push_window 1 [] (plainReading.value.getD 0) = [5] := by decide
        rw [hpw]
        rw [max_variation, listMean]
        norm_num
  refine ⟨hmain.1 [] (by decide),
    hmain.2.1 packetOverload (by decide) (by decide) (by decide),
    ⟨rfl, (hmain.2.2.1 [some packetOverload] _ rfl) (by decide)⟩,
    ⟨_, rfl, hmain.2.2.2.1 [Except.ok plainReading] _ rfl⟩,
    hwait, by decide, by decide⟩

end UT61EAuto

namespace UT61EAuto

/-- C4: `read_averaged` over a feed with no usable sample (every reading
raised, was overload, or had an absent value) fails with the
"no valid samples" driver error; with at least one usable sample it
returns a non-overload reading whose value is the arithmetic mean of the
usable samples only, whose `sample_count` flag counts exactly those
samples, and whose `std_dev` flag is the sample standard deviation of
those samples (0 for a single sample). -/
theorem c4_read_averaged_spec (feed : List (Except PyExc MeterReading)) :
    (collect_samples feed = [] →
      read_averaged feed =
        Except.error (PyExc.ut61eError "No valid samples obtained for averaging")) ∧
    (collect_samples feed ≠ [] →
      ∃ r, read_averaged feed = Except.ok r ∧
        r.value = some ((collect_samples feed).sum /
          ((collect_samples feed).length : ℚ)) ∧
        r.is_overload = false ∧
        r.flags.lookup "sample_count" =
          some (FlagVal.fn (collect_samples feed).length) ∧
        r.flags.lookup "std_dev" = some (FlagVal.fr
          (if 1 < (collect_samples feed).length then
            sampleStdDev (collect_samples feed) else 0)) ∧
        r.flags.lookup "averaged" = some (FlagVal.fb true)) := by
  constructor
  · intro h
    rw [read_averaged, if_pos (by rw [h]; rfl)]
  · intro h
    have hne : (collect_samples feed).isEmpty = false := by
      cases hc : collect_samples feed with
      | nil => exact absurd hc h
      | cons a l => rfl
    rw [read_averaged, if_neg (by rw [hne]; exact Bool.false_ne_true)]
    refine ⟨_, rfl, ?_, rfl, rfl, rfl, rfl⟩
    show some (listMean (collect_samples feed)) = _
    rw [listMean]

/-- A non-overload reading with a given numeric value. -/
def mkReading (v : ℚ) : MeterReading :=
  { value := some v, unit := "Ohm", mode := "Resistance" }

/-- An overload reading with no value. -/
def overloadReading : MeterReading :=
  { value := none, unit := "Ohm", mode := "Resistance", is_overload := true }

/-- C4 witness: an all-overload feed fails with "no valid samples"; a feed
of one overload, one raised attempt and usable samples 1, 3, 5 averages to
3 with `sample_count = 3`. -/
theorem c4_read_averaged_spec_witness :
    read_averaged [Except.ok overloadReading, Except.error (PyExc.ut61eError "x")] =
      Except.error (PyExc.ut61eError "No valid samples obtained for averaging") ∧
    (∃ r, read_averaged
        [Except.ok overloadReading, Except.error (PyExc.ut61eError "x"),
         Except.ok (mkReading 1), Except.ok (mkReading 3), Except.ok (mkReading 5)] =
        Except.ok r ∧
      r.value = some 3 ∧
      r.flags.lookup "sample_count" = some (FlagVal.fn 3)) := by
  constructor
  · exact (c4_read_averaged_spec _).1 (by decide)
  · obtain ⟨r, h1, h2, h3, h4, h5, h6⟩ :=
      (c4_read_averaged_spec
        [Except.ok overloadReading, Except.error (PyExc.ut61eError "x"),
         Except.ok (mkReading 1), Except.ok (mkReading 3), Except.ok (mkReading 5)]).2
        (by decide)
    refine ⟨r, h1, ?_, ?_⟩
    · rw [h2]
      have hs : collect_samples
          [Except.ok overloadReading, Except.error (PyExc.ut61eError "x"),
           Except.ok (mkReading 1), Except.ok (mkReading 3), Except.ok (mkReading 5)] =
          [1, 3, 5] := rfl
      rw [hs]
      norm_num
    · rw [h4]
      rfl

end UT61EAuto

namespace UT61EAuto

/-- Combined simulate-mode state: the transport's `_sim_counter` and the
commands layer's `_sim_value`. -/
structure SimState where
  counter : ℕ
  sim_value : ℚ

/-- One simulate-mode pipeline iteration: `read_packet()` (which bumps the
transport counter and synthesizes a frame) followed by
`cmd_parse_packet` (which bumps `_sim_value` and builds the reading). -/
def sim_read_cycle (s : SimState) : MeterReading × SimState :=
  let pc := read_packet_sim s.counter
  let rv := cmd_parse_packet true s.sim_value pc.1
  (rv.1, ⟨pc.2, rv.2⟩)

/-- The simulate-mode state after `k` pipeline iterations, from the
initial state (`_sim_counter = 0`, `_sim_value = 100.0`). -/
def sim_state_seq : ℕ → SimState
  | 0 => ⟨0, 100⟩
  | k + 1 => (sim_read_cycle (sim_state_seq k)).2

/-- The reading produced by the `(k+1)`-st simulate-mode iteration. -/
def sim_reading (k : ℕ) : MeterReading :=
  (sim_read_cycle (sim_state_seq k)).1

lemma sim_state_counter (k : ℕ) : (sim_state_seq k).counter = k := by
  induction k with
  | zero => rfl
  | succ k ih =>
    show (sim_state_seq k).counter + 1 = k + 1
    rw [ih]

/-- The commands-layer simulate value always has the form `100 + j/2` with
`0 ≤ j ≤ 100`. -/
lemma sim_state_value_form (k : ℕ) :
    ∃ j : ℕ, j ≤ 100 ∧ (sim_state_seq k).sim_value = 100 + (j : ℚ) / 2 := by
  induction k with
  | zero =>
    refine ⟨0, by norm_num, ?_⟩
    rw [show (sim_state_seq 0).sim_value = 100 from rfl]
    norm_num
  | succ k ih =>
    obtain ⟨j, hj, hv⟩ := ih
    have hstep : (sim_state_seq (k + 1)).sim_value =
        (if 150 < (sim_state_seq k).sim_value + 1/2 then (100 : ℚ)
         else (sim_state_seq k).sim_value + 1/2) := rfl
    by_cases hc : j = 100
    · refine ⟨0, by norm_num, ?_⟩
      rw [hstep, if_pos (by rw [hv, hc]; norm_num)]
      norm_num
    · have hlt : j < 100 := lt_of_le_of_ne hj hc
      refine ⟨j + 1, by omega, ?_⟩
      rw [hstep, if_neg ?hcond, hv]
      · push_cast
        ring
      case hcond =>
        rw [hv]
        have : (j : ℚ) ≤ 99 := by exact_mod_cast Nat.le_of_lt_succ hlt
        intro hgt
        nlinarith

/-- C9: in simulate mode every pipeline reading has unit `"Ohm"`, mode
`"Resistance"` and no overload; the values lie in `[100, 150]` and step
upward by the fixed increment 0.5, wrapping at the ceiling 150.0 back to
the floor 100.0; and the synthesized frame of each iteration is a
valid-looking 14-byte ES51922 frame (canonical terminator, decodes
without error and without overload even through the hardware parser). -/
theorem c9_simulate_cycle (k : ℕ) :
    (sim_reading k).unit = "Ohm" ∧
    (sim_reading k).mode = "Resistance" ∧
    (sim_reading k).is_overload = false ∧
    (∃ v v' : ℚ, (sim_reading k).value = some v ∧
      (sim_reading (k + 1)).value = some v' ∧
      100 ≤ v ∧ v ≤ 150 ∧
      (v' = v + 1/2 ∨ (v = 150 ∧ v' = 100))) ∧
    ((read_packet_sim (sim_state_seq k).counter).1.length = 14 ∧
      (read_packet_sim (sim_state_seq k).counter).1.drop 12 = [0x0D, 0x0A] ∧
      ((cmd_parse_packet_hw
        (read_packet_sim (sim_state_seq k).counter).1).flags.lookup "error") = none ∧
      (cmd_parse_packet_hw
        (read_packet_sim (sim_state_seq k).counter).1).is_overload = false) := by
  refine ⟨rfl, rfl, rfl, ?_, rfl, rfl,
    cmd_parse_packet_hw_no_error_of_valid _ rfl rfl, ?_⟩
  · have hval : ∀ m, (sim_reading m).value = some ((sim_state_seq (m + 1)).sim_value) :=
      fun m => rfl
    obtain ⟨j, hj, hv⟩ := sim_state_value_form (k + 1)
    refine ⟨(sim_state_seq (k + 1)).sim_value, (sim_state_seq (k + 2)).sim_value,
      hval k, hval (k + 1), ?_, ?_, ?_⟩
    · rw [hv]
      have h0 : (0 : ℚ) ≤ (j : ℚ) / 2 := by positivity
      linarith
    · rw [hv]
      have : (j : ℚ) ≤ 100 := by exact_mod_cast hj
      linarith
    · have hstep : (sim_state_seq (k + 2)).sim_value =
          (if 150 < (sim_state_seq (k + 1)).sim_value + 1/2 then (100 : ℚ)
           else (sim_state_seq (k + 1)).sim_value + 1/2) := rfl
      by_cases hc : j = 100
      · right
        constructor
        · rw [hv, hc]; norm_num
        · rw [hstep, if_pos (by rw [hv, hc]; norm_num)]
      · left
        have hlt : j < 100 := lt_of_le_of_ne hj hc
        rw [hstep, if_neg ?hcond]
        case hcond =>
          rw [hv]
          have : (j : ℚ) ≤ 99 := by exact_mod_cast Nat.le_of_lt_succ hlt
          intro hgt
          nlinarith
  · rw [cmd_parse_packet_hw_is_overload_of_valid
      ((read_packet_sim (sim_state_seq k).counter).1) rfl rfl]
    change ((0x30 &&& 0x0F &&& 0x01 != 0) = false)
    decide

end UT61EAuto

namespace UT61EAuto

/-- Placeholder outcome for `getD`; never selected at in-range indices. -/
def defaultOutcome : Except PyExc MeterReading := Except.error (PyExc.ut61eError "")

/-- Whether a loop-iteration outcome passes `wait_for_stable`'s check: the
read did not raise, the reading is not overload and its value is
present. -/
def valid_reading : Except PyExc MeterReading → Bool
  | .ok r => !r.is_overload && r.value.isSome
  | .error _ => false

/-- The numeric value `wait_for_stable` pushes into its window. -/
def reading_val : Except PyExc MeterReading → ℚ
  | .ok r => r.value.getD 0
  | .error _ => 0

/-- Window evolution for one outcome: a valid value is pushed (keeping the
last `w`), anything else clears the window. -/
def win_step (w : ℕ) (win : List ℚ) (e : Except PyExc MeterReading) : List ℚ :=
  if valid_reading e then push_window w win (reading_val e) else []

/-- Window contents after a sequence of outcomes. -/
def win_after (w : ℕ) (win : List ℚ)
    (l : List (Except PyExc MeterReading)) : List ℚ :=
  l.foldl (win_step w) win

/-- Length of the unbroken run of valid outcomes at the end of `l`. -/
def trail_valid (l : List (Except PyExc MeterReading)) : ℕ :=
  (l.reverse.takeWhile valid_reading).length

/-- The loop's stop test: the window is full and the deviation bound
holds. -/
def win_trigger (t : ℚ) (w : ℕ) (win : List ℚ) : Prop :=
  w ≤ win.length ∧ max_variation win ≤ t

/-- Declarative stability at index `i`: the `w` outcomes ending at `i` are
all successful numeric readings (so the sliding window is full — no
overload, absent value or read error interrupted it) and the maximum
deviation of their values from the window mean (relative, or absolute
when the mean is zero) is within the threshold. -/
def stable_at (feed : List (Except PyExc MeterReading)) (t : ℚ) (w i : ℕ) : Prop :=
  w ≤ i + 1 ∧
  (∀ j, i + 1 - w ≤ j → j ≤ i →
    valid_reading (feed.getD j defaultOutcome) = true) ∧
  max_variation (((feed.take (i + 1)).drop (i + 1 - w)).map reading_val) ≤ t

/-- The condition under which the loop halts at index `k` of `l`. -/
def trig_at (t : ℚ) (w : ℕ) (l : List (Except PyExc MeterReading)) (k : ℕ) : Prop :=
  valid_reading (l.getD k defaultOutcome) = true ∧
  win_trigger t w (win_after w [] (l.take (k + 1)))

lemma win_after_append (w : ℕ) (win : List ℚ)
    (l : List (Except PyExc MeterReading)) (e : Except PyExc MeterReading) :
    win_after w win (l ++ [e]) = win_step w (win_after w win l) e := by
  rw [win_after, List.foldl_append]
  rfl

lemma trail_valid_append_valid (l : List (Except PyExc MeterReading))
    (e : Except PyExc MeterReading) (h : valid_reading e = true) :
    trail_valid (l ++ [e]) = trail_valid l + 1 := by
  rw [trail_valid, trail_valid]
  simp [List.takeWhile_cons, h]

lemma trail_valid_append_invalid (l : List (Except PyExc MeterReading))
    (e : Except PyExc MeterReading) (h : valid_reading e = false) :
    trail_valid (l ++ [e]) = 0 := by
  rw [trail_valid]
  simp [List.takeWhile_cons, h]

lemma trail_valid_le (l : List (Except PyExc MeterReading)) :
    trail_valid l ≤ l.length := by
  have hpre : l.reverse.takeWhile valid_reading <+: l.reverse :=
    List.takeWhile_prefix _
  have h := hpre.length_le
  simpa [trail_valid] using h

end UT61EAuto

namespace UT61EAuto

/-- The loop window from an empty start holds exactly the values of the
last `min w (trail_valid l)` outcomes: the trailing valid run, capped at
the window size. -/
lemma win_after_spec (w : ℕ) (hw : 0 < w)
    (l : List (Except PyExc MeterReading)) :
    (win_after w [] l).length = min w (trail_valid l) ∧
    win_after w [] l =
      (l.drop (l.length - min w (trail_valid l))).map reading_val := by
  induction l using List.reverseRecOn with
  | nil => simp [win_after, trail_valid]
  | append_singleton l e ih =>
    obtain ⟨ihlen, iheq⟩ := ih
    rw [win_after_append]
    by_cases hv : valid_reading e = true
    · rw [win_step, if_pos hv, trail_valid_append_valid l e hv]
      by_cases hT : trail_valid l < w
      · have hmin : min w (trail_valid l) = trail_valid l := by omega
        have hmin' : min w (trail_valid l + 1) = trail_valid l + 1 := by omega
        rw [hmin] at ihlen iheq
        rw [hmin', push_window]
        have hlen2 : (win_after w [] l ++ [reading_val e]).length =
            trail_valid l + 1 := by
          simp [ihlen]
        rw [if_neg (by rw [hlen2]; omega)]
        have hTl := trail_valid_le l
        constructor
        · simp [ihlen]
        · rw [iheq]
          have hidx : (l ++ [e]).length - (trail_valid l + 1) =
              l.length - trail_valid l := by
            simp only [List.length_append, List.length_singleton]
            omega
          rw [hidx, List.drop_append_of_le_length (by omega), List.map_append]
          rfl
      · have hTw : w ≤ trail_valid l := by omega
        have hwl : w ≤ l.length := le_trans hTw (trail_valid_le l)
        have hmin : min w (trail_valid l) = w := by omega
        have hmin' : min w (trail_valid l + 1) = w := by omega
        rw [hmin] at ihlen iheq
        rw [hmin', push_window]
        have hlen2 : (win_after w [] l ++ [reading_val e]).length = w + 1 := by
          simp [ihlen]
        rw [if_pos (by rw [hlen2]; omega)]
        constructor
        · rw [List.length_drop, hlen2]
          omega
        · rw [iheq]
          have hidx : (l ++ [e]).length - w = (l.length - w) + 1 := by
            simp only [List.length_append, List.length_singleton]
            omega
          rw [hidx]
          have h1 : (l ++ [e]).drop ((l.length - w) + 1) =
              l.drop ((l.length - w) + 1) ++ [e] :=
            List.drop_append_of_le_length (by omega)
          rw [h1, List.map_append]
          have h2 : ((List.map reading_val (l.drop (l.length - w))) ++
                [reading_val e]).drop 1 =
              (List.map reading_val (l.drop (l.length - w))).drop 1 ++
                [reading_val e] :=
            List.drop_append_of_le_length
              (by rw [List.length_map, List.length_drop]; omega)
          rw [h2, ← List.map_drop, List.drop_drop]
          rfl
    · have hv' : valid_reading e = false := by
        rw [Bool.not_eq_true] at hv
        exact hv
      rw [win_step, if_neg (by rw [hv']; exact Bool.false_ne_true),
        trail_valid_append_invalid l e hv']
      constructor
      · simp
      · simp

end UT61EAuto

namespace UT61EAuto

/-- Positional characterization of `takeWhile`: its length reaches `w`
exactly when the first `w` entries all satisfy the predicate. -/
lemma takeWhile_length_ge_iff {α : Type} (p : α → Bool) (d : α) :
    ∀ (m : List α) (w : ℕ),
      w ≤ (m.takeWhile p).length ↔
        (w ≤ m.length ∧ ∀ j, j < w → p (m.getD j d) = true) := by
  intro m
  induction m with
  | nil =>
    intro w
    constructor
    · intro h
      simp only [List.takeWhile_nil, List.length_nil, Nat.le_zero] at h
      subst h
      exact ⟨Nat.le_refl 0, fun j hj => absurd hj (Nat.not_lt_zero j)⟩
    · rintro ⟨h1, _⟩
      simpa using h1
  | cons a m ih =>
    intro w
    by_cases hp : p a = true
    · rw [List.takeWhile_cons, if_pos hp]
      cases w with
      | zero => simp
      | succ w' =>
        simp only [List.length_cons, Nat.succ_le_succ_iff]
        rw [ih w']
        constructor
        · rintro ⟨h1, h2⟩
          refine ⟨h1, ?_⟩
          intro j hj
          cases j with
          | zero => exact hp
          | succ j' => exact h2 j' (by omega)
        · rintro ⟨h1, h2⟩
          exact ⟨h1, fun j hj => h2 (j + 1) (by omega)⟩
    · have hp' : p a = false := by
        rw [Bool.not_eq_true] at hp
        exact hp
      rw [List.takeWhile_cons, if_neg (by rw [hp']; exact Bool.false_ne_true)]
      cases w with
      | zero => simp
      | succ w' =>
        simp only [List.length_nil, List.length_cons]
        constructor
        · intro h
          omega
        · rintro ⟨h1, h2⟩
          have h0 := h2 0 (by omega)
          rw [show ((a :: m).getD 0 d) = a from rfl, hp'] at h0
          cases h0

/-- `getD` through `reverse`, for in-range indices. -/
lemma reverse_getD {α : Type} (l : List α) (d : α) (j : ℕ) (hj : j < l.length) :
    l.reverse.getD j d = l.getD (l.length - 1 - j) d := by
  have hj' : j < l.reverse.length := by
    rw [List.length_reverse]
    exact hj
  rw [List.getD_eq_getElem l.reverse d hj', List.getElem_reverse,
    List.getD_eq_getElem l d (by omega)]

/-- The trailing valid run reaches `w` exactly when the last `w` outcomes
are all valid. -/
lemma trail_valid_ge_iff (l : List (Except PyExc MeterReading)) (w : ℕ) :
    w ≤ trail_valid l ↔
      (w ≤ l.length ∧ ∀ j, l.length - w ≤ j → j < l.length →
        valid_reading (l.getD j defaultOutcome) = true) := by
  rw [trail_valid,
    takeWhile_length_ge_iff valid_reading defaultOutcome l.reverse w,
    List.length_reverse]
  constructor
  · rintro ⟨h1, h2⟩
    refine ⟨h1, ?_⟩
    intro j hj1 hj2
    have h := h2 (l.length - 1 - j) (by omega)
    rw [reverse_getD l defaultOutcome (l.length - 1 - j) (by omega)] at h
    rwa [show l.length - 1 - (l.length - 1 - j) = j by omega] at h
  · rintro ⟨h1, h2⟩
    refine ⟨h1, ?_⟩
    intro j hj
    rw [reverse_getD l defaultOutcome j (by omega)]
    exact h2 (l.length - 1 - j) (by omega) (by omega)

end UT61EAuto

namespace UT61EAuto

/-- For `0 < w` the loop's stop condition at an in-range index is exactly
declarative stability there. -/
lemma trig_at_iff_stable_at (t : ℚ) (w : ℕ) (hw : 0 < w)
    (feed : List (Except PyExc MeterReading)) (i : ℕ) (hi : i < feed.length) :
    trig_at t w feed i ↔ stable_at feed t w i := by
  have hPlen : (feed.take (i + 1)).length = i + 1 := by
    rw [List.length_take]
    omega
  have hgetD : ∀ j, j < i + 1 →
      (feed.take (i + 1)).getD j defaultOutcome = feed.getD j defaultOutcome := by
    intro j hj
    rw [List.getD_eq_getElem?_getD, List.getD_eq_getElem?_getD,
      List.getElem?_take_of_lt hj]
  have htrail : w ≤ trail_valid (feed.take (i + 1)) ↔
      (w ≤ i + 1 ∧ ∀ j, i + 1 - w ≤ j → j ≤ i →
        valid_reading (feed.getD j defaultOutcome) = true) := by
    rw [trail_valid_ge_iff, hPlen]
    constructor
    · rintro ⟨h1, h2⟩
      refine ⟨h1, fun j hj1 hj2 => ?_⟩
      rw [← hgetD j (by omega)]
      exact h2 j hj1 (by omega)
    · rintro ⟨h1, h2⟩
      refine ⟨h1, fun j hj1 hj2 => ?_⟩
      rw [hgetD j hj2]
      exact h2 j hj1 (by omega)
  have hwin := win_after_spec w hw (feed.take (i + 1))
  constructor
  · rintro ⟨hvalid, hlen, hdev⟩
    have htw : w ≤ trail_valid (feed.take (i + 1)) := by
      rw [hwin.1] at hlen
      omega
    have hmin : min w (trail_valid (feed.take (i + 1))) = w := by omega
    obtain ⟨hfull, hpos⟩ := htrail.mp htw
    refine ⟨hfull, hpos, ?_⟩
    rw [hwin.2, hmin, hPlen] at hdev
    exact hdev
  · rintro ⟨hfull, hpos, hdev⟩
    have htw : w ≤ trail_valid (feed.take (i + 1)) := htrail.mpr ⟨hfull, hpos⟩
    have hmin : min w (trail_valid (feed.take (i + 1))) = w := by omega
    refine ⟨hpos i (by omega) (Nat.le_refl i), ?_, ?_⟩
    · rw [hwin.1]
      omega
    · rw [hwin.2, hmin, hPlen]
      exact hdev

end UT61EAuto

namespace UT61EAuto

lemma valid_reading_ok (r0 : MeterReading) :
    valid_reading (Except.ok r0) = !(r0.is_overload || r0.value.isNone) := by
  rw [valid_reading, Bool.not_or]
  cases r0.value <;> simp

/-- An outcome failing the check makes the loop clear the window and
continue. -/
lemma wfs_go_invalid_step (t : ℚ) (w : ℕ) (e : Except PyExc MeterReading)
    (rest : List (Except PyExc MeterReading)) (win : List ℚ)
    (he : valid_reading e = false) :
    wait_for_stable_go t w (e :: rest) win = wait_for_stable_go t w rest [] := by
  cases e with
  | error e0 => rfl
  | ok r0 =>
    rw [wait_for_stable_go]
    rw [valid_reading_ok] at he
    have hcond : (r0.is_overload || r0.value.isNone) = true := by
      cases h : (r0.is_overload || r0.value.isNone) with
      | false => rw [h] at he; cases he
      | true => rfl
    rw [if_pos hcond]

/-- An outcome passing the check pushes its value and tests the stop
condition. -/
lemma wfs_go_valid_step (t : ℚ) (w : ℕ) (r0 : MeterReading)
    (rest : List (Except PyExc MeterReading)) (win : List ℚ)
    (he : valid_reading (Except.ok r0) = true) :
    wait_for_stable_go t w (Except.ok r0 :: rest) win =
      (if w ≤ (push_window w win (r0.value.getD 0)).length ∧
          max_variation (push_window w win (r0.value.getD 0)) ≤ t then
        some r0
      else
        wait_for_stable_go t w rest (push_window w win (r0.value.getD 0))) := by
  rw [wait_for_stable_go]
  rw [valid_reading_ok] at he
  have hcond : (r0.is_overload || r0.value.isNone) = false := by
    cases h : (r0.is_overload || r0.value.isNone) with
    | false => rfl
    | true => rw [h] at he; cases he
  rw [if_neg (by rw [hcond]; exact Bool.false_ne_true)]

lemma getD_append_shift {α : Type} (l1 l2 : List α) (i : ℕ) (d : α) :
    (l1 ++ l2).getD (l1.length + i) d = l2.getD i d := by
  simp [List.getD_eq_getElem?_getD, List.getElem?_append_right]

lemma take_append_one {α : Type} (hist : List α) (e : α) (rest : List α) :
    (hist ++ e :: rest).take (hist.length + 1) = hist ++ [e] := by
  have h : (hist ++ e :: rest).take (hist.length + 1) =
      hist ++ (e :: rest).take 1 := List.take_append 1
  simpa using h

end UT61EAuto

namespace UT61EAuto

/-- Index-shifting step for the loop characterization: when the loop does
not halt at the head outcome, halting points of `e :: rest` correspond to
halting points of `rest` with the head moved into the history. -/
lemma trig_exists_shift (t : ℚ) (w : ℕ) (r : MeterReading)
    (e : Except PyExc MeterReading)
    (rest hist : List (Except PyExc MeterReading))
    (h0 : ¬ trig_at t w (hist ++ e :: rest) hist.length) :
    (∃ i, i < (e :: rest).length ∧
      (e :: rest).getD i defaultOutcome = Except.ok r ∧
      trig_at t w (hist ++ e :: rest) (hist.length + i) ∧
      ∀ j, j < i → ¬ trig_at t w (hist ++ e :: rest) (hist.length + j)) ↔
    (∃ i, i < rest.length ∧ rest.getD i defaultOutcome = Except.ok r ∧
      trig_at t w ((hist ++ [e]) ++ rest) ((hist ++ [e]).length + i) ∧
      ∀ j, j < i → ¬ trig_at t w ((hist ++ [e]) ++ rest) ((hist ++ [e]).length + j)) := by
  have happ : (hist ++ [e]) ++ rest = hist ++ e :: rest := by simp
  have hlen : (hist ++ [e]).length = hist.length + 1 := by simp
  rw [happ, hlen]
  constructor
  · rintro ⟨i, hi, hg, ht, hm⟩
    cases i with
    | zero =>
      rw [Nat.add_zero] at ht
      exact absurd ht h0
    | succ i' =>
      simp only [List.length_cons] at hi
      refine ⟨i', by omega, hg, ?_, ?_⟩
      · rw [show hist.length + 1 + i' = hist.length + (i' + 1) by omega]
        exact ht
      · intro j hj
        rw [show hist.length + 1 + j = hist.length + (j + 1) by omega]
        exact hm (j + 1) (by omega)
  · rintro ⟨i', hi, hg, ht, hm⟩
    refine ⟨i' + 1, by simp only [List.length_cons]; omega, hg, ?_, ?_⟩
    · rw [show hist.length + (i' + 1) = hist.length + 1 + i' by omega]
      exact ht
    · intro j hj
      cases j with
      | zero =>
        rw [Nat.add_zero]
        exact h0
      | succ j' =>
        rw [show hist.length + (j' + 1) = hist.length + 1 + j' by omega]
        exact hm j' (by omega)

/-- Characterization of the `wait_for_stable` loop: starting with the
window determined by an already-processed history, it returns `some r`
exactly when some outcome of the remaining feed is the first halting
point, and `r` is that outcome's reading. -/
lemma wfs_go_some_iff (t : ℚ) (w : ℕ) (r : MeterReading) :
    ∀ (rest hist : List (Except PyExc MeterReading)),
      wait_for_stable_go t w rest (win_after w [] hist) = some r ↔
        ∃ i, i < rest.length ∧ rest.getD i defaultOutcome = Except.ok r ∧
          trig_at t w (hist ++ rest) (hist.length + i) ∧
          ∀ j, j < i → ¬ trig_at t w (hist ++ rest) (hist.length + j) := by
  intro rest
  induction rest with
  | nil =>
    intro hist
    constructor
    · intro h
      rw [wait_for_stable_go] at h
      cases h
    · rintro ⟨i, hi, _⟩
      simp at hi
  | cons e rest ih =>
    intro hist
    by_cases hv : valid_reading e = true
    · cases e with
      | error e0 => rw [valid_reading] at hv; cases hv
      | ok r0 =>
        rw [wfs_go_valid_step t w r0 rest (win_after w [] hist) hv]
        have hwin' : push_window w (win_after w [] hist) (r0.value.getD 0) =
            win_after w [] (hist ++ [Except.ok r0]) := by
          rw [win_after_append, win_step, if_pos hv]
          rfl
        have htake := take_append_one hist (Except.ok r0) rest
        have hvalid0 : valid_reading
            ((hist ++ Except.ok r0 :: rest).getD hist.length defaultOutcome) = true := by
          have h := getD_append_shift hist (Except.ok r0 :: rest) 0 defaultOutcome
          rw [Nat.add_zero] at h
          rw [h]
          exact hv
        by_cases htr : win_trigger t w (win_after w [] (hist ++ [Except.ok r0]))
        · obtain ⟨htr1, htr2⟩ := htr
          rw [hwin', if_pos ⟨htr1, htr2⟩]
          constructor
          · intro h
            have hr : r0 = r := by
              injection h
            refine ⟨0, by simp, ?_, ?_, fun j hj => absurd hj (Nat.not_lt_zero j)⟩
            · rw [show (Except.ok r0 :: rest).getD 0 defaultOutcome =
                  Except.ok r0 from rfl, hr]
            · rw [Nat.add_zero]
              refine ⟨hvalid0, ?_⟩
              rw [take_append_one]
              exact ⟨htr1, htr2⟩
          · rintro ⟨i, hi, hg, ht, hm⟩
            cases i with
            | zero =>
              have : Except.ok r0 = Except.ok r := hg
              injection this with hr
              rw [hr]
            | succ i' =>
              exfalso
              apply hm 0 (by omega)
              rw [Nat.add_zero]
              refine ⟨hvalid0, ?_⟩
              rw [take_append_one]
              exact ⟨htr1, htr2⟩
        · rw [hwin', if_neg (by
            intro hc
            exact htr ⟨hc.1, hc.2⟩)]
          have hshift := trig_exists_shift t w r (Except.ok r0) rest hist (by
            intro hc
            apply htr
            have := hc.2
            rwa [take_append_one] at this)
          rw [ih (hist ++ [Except.ok r0])] at *
          rw [← hshift]
    · have hv' : valid_reading e = false := by
        rw [Bool.not_eq_true] at hv
        exact hv
      rw [wfs_go_invalid_step t w e rest (win_after w [] hist) hv']
      have hempty : ([] : List ℚ) = win_after w [] (hist ++ [e]) := by
        rw [win_after_append, win_step, if_neg (by rw [hv']; exact Bool.false_ne_true)]
      rw [hempty, ih (hist ++ [e])]
      have h0 : ¬ trig_at t w (hist ++ e :: rest) hist.length := by
        rintro ⟨hval, -⟩
        have h := getD_append_shift hist (e :: rest) 0 defaultOutcome
        rw [Nat.add_zero] at h
        rw [h, show (e :: rest).getD 0 defaultOutcome = e from rfl, hv'] at hval
        cases hval
      rw [← trig_exists_shift t w r e rest hist h0]

end UT61EAuto

namespace UT61EAuto

/-- C5: `wait_for_stable` returns a reading exactly when some index `i`
of the feed is the first point at which the sliding window of the last
`window_size` successful numeric values is full (no overload,
absent-value or raised reading interrupted it — any of those clears the
window) and the maximum deviation of the window members from the window
mean — relative to the mean, or absolute when the mean is exactly zero —
is within the threshold; the returned reading is the most recent one
read, i.e. the one at that index. -/
theorem c5_wait_for_stable_iff (t : ℚ) (w : ℕ) (hw : 0 < w)
    (feed : List (Except PyExc MeterReading)) (r : MeterReading) :
    wait_for_stable t w feed = some r ↔
      ∃ i, i < feed.length ∧ feed.getD i defaultOutcome = Except.ok r ∧
        stable_at feed t w i ∧ ∀ j, j < i → ¬ stable_at feed t w j := by
  rw [wait_for_stable,
    show ([] : List ℚ) =
      win_after w [] ([] : List (Except PyExc MeterReading)) from rfl,
    wfs_go_some_iff t w r feed []]
  constructor
  · rintro ⟨i, hi, hg, ht, hm⟩
    simp only [List.nil_append, List.length_nil, Nat.zero_add] at ht hm
    refine ⟨i, hi, hg, (trig_at_iff_stable_at t w hw feed i hi).mp ht, ?_⟩
    intro j hj hs
    exact hm j hj ((trig_at_iff_stable_at t w hw feed j (by omega)).mpr hs)
  · rintro ⟨i, hi, hg, hs, hm⟩
    refine ⟨i, hi, hg, ?_, ?_⟩
    · simp only [List.nil_append, List.length_nil, Nat.zero_add]
      exact (trig_at_iff_stable_at t w hw feed i hi).mpr hs
    · intro j hj
      simp only [List.nil_append, List.length_nil, Nat.zero_add]
      exact fun ht => hm j hj ((trig_at_iff_stable_at t w hw feed j (by omega)).mp ht)

/-- C5 witness: with window size 1 and threshold 1, a single valid
reading of 5 makes the loop stop at index 0, and the characterization
recovers the declarative stability there. -/
theorem c5_wait_for_stable_iff_witness :
    ∃ i, i < ([Except.ok plainReading] : List (Except PyExc MeterReading)).length ∧
      [Except.ok plainReading].getD i defaultOutcome = Except.ok plainReading ∧
      stable_at [Except.ok plainReading] 1 1 i ∧
      ∀ j, j < i → ¬ stable_at [Except.ok plainReading] 1 1 j := by
  apply (c5_wait_for_stable_iff 1 1 (by norm_num) [Except.ok plainReading]
    plainReading).mp
  rw [wait_for_stable, wait_for_stable_go,
    if_neg (by decide :
      ¬(plainReading.is_overload || plainReading.value.isNone) = true)]
  rw [if_pos ?hc]
  case hc =>
    constructor
    · decide
    · have hpw : push_window 1 [] (plainReading.value.getD 0) = [5] := by decide
      rw [hpw, max_variation, listMean]
      norm_num

end UT61EAuto
